import Mathlib

/-!
Verification of the NPS-vs-UPS career and corpus simulation engine.

This file is a shallow embedding, in Lean 4, of the Python modules
`invest_options.py`, `rates.py`, `pay_commissions.py`, `salary.py` and
`contribution.py` of the repository. Monetary and percentage values are
modelled as rationals (the Python code computes with floats, but every
quantity the claims touch is an exact decimal, where float arithmetic is
exact at the sizes involved); machine dictionaries become association
lists with the insertion-order update semantics of Python dicts; code
that can raise becomes `Except String`. Half-year timeline keys
(2024.0, 2024.5, ...) are represented in half-year units: the integer
`k` stands for the calendar value `k / 2`.
-/

attribute [local semireducible] Rat.mul Rat.inv Rat.add Rat.sub Rat.ofScientific

/-- Floor of a rational, computed from the normalised numerator and
denominator by flooring integer division. -/
def ratFloor (q : ℚ) : ℤ := Int.fdiv q.num q.den

/-- Python `round` (banker's rounding, round-half-to-even) to an integer.
Ties, where the fractional part is exactly one half, go to the even
integer neighbour. -/
def pyRoundInt (q : ℚ) : ℤ :=
  let f : ℤ := ratFloor q
  let r : ℚ := q - (f : ℚ)
  if r < 1/2 then f
  else if 1/2 < r then f + 1
  else if f % 2 = 0 then f else f + 1

/-- Python `round(x, 2)`: round to two decimal places, half to even. -/
def pyRound2 (q : ℚ) : ℚ := (pyRoundInt (q * 100) : ℚ) / 100

/-- Python `round(x, 1)`: round to one decimal place, half to even. -/
def pyRound1 (q : ℚ) : ℚ := (pyRoundInt (q * 10) : ℚ) / 10

deriving instance DecidableEq for Except

theorem ratFloor_intCast (n : ℤ) : ratFloor (n : ℚ) = n := by
  unfold ratFloor
  rw [Rat.intCast_num, Rat.intCast_den]
  exact Int.fdiv_one n

theorem pyRoundInt_intCast (n : ℤ) : pyRoundInt (n : ℚ) = n := by
  unfold pyRoundInt
  rw [ratFloor_intCast]
  simp only [sub_self]
  norm_num

/-- The closed integer range `lo, lo+1, ..., hi`, mirroring Python
`range(lo, hi + 1)`. -/
def intRangeIncl (lo hi : ℤ) : List ℤ :=
  (List.range (hi + 1 - lo).toNat).map (fun k => lo + (k : ℤ))

/-!
## invest_options.py

`get_ecg_matrix` builds the age-indexed allocation table for a named
investment strategy; `get_investment_allocation` validates the age and
looks one age up in that table. Allocations are triples
(E percent, C percent, G percent).
-/

/-- The valid strategy names, in the order `get_ecg_matrix` lists them. -/
def possibleInvestChoices : List String :=
  ["Active", "Auto_LC25", "Auto_LC50", "Auto_LC75", "Standard/Benchmark"]

/-- The per-age allocation branch of the loop body of `get_ecg_matrix`
(invest_options.py lines 186-257). The final catch-all arm is unreachable
because `get_ecg_matrix` validates the option before the loop. -/
def ecgEntry (opt : String) (age : ℤ) : ℚ × ℚ × ℚ :=
  if opt = "Standard/Benchmark" then (15, 35, 50)
  else if opt = "Auto_LC25" then
    if age ≤ 35 then (25, 45, 30)
    else if 55 ≤ age then (5, 5, 90)
    else
      let y : ℚ := ((age - 35 : ℤ) : ℚ)
      (25 - 1 * y, 45 - 2 * y, 30 + 3 * y)
  else if opt = "Auto_LC50" then
    if age ≤ 35 then (50, 30, 20)
    else if 55 ≤ age then (10, 10, 80)
    else
      let y : ℚ := ((age - 35 : ℤ) : ℚ)
      (50 - 2 * y, 30 - 1 * y, 20 + 3 * y)
  else if opt = "Auto_LC75" then
    if age ≤ 35 then (75, 10, 15)
    else if 55 ≤ age then (15, 10, 75)
    else
      let y : ℤ := age - 35
      let E : ℚ := 75 - 3 * (y : ℚ)
      let G : ℚ := 15 + 3 * (y : ℚ)
      let C : ℚ :=
        if y ≤ 10 then 10 + (y : ℚ) * 1
        else if y ≤ 15 then 20
        else 20 - 2 * ((y : ℚ) - 15)
      (E, C, G)
  else if opt = "Active" then
    if age ≤ 50 then (75, 25, 0)
    else if age ≤ 60 then
      let y : ℚ := ((age - 50 : ℤ) : ℚ)
      (75 - 2.5 * y, 25, 0 + 2.5 * y)
    else (50, 25, 25)
  else (0, 0, 0)

/-- `get_ecg_matrix` (invest_options.py lines 135-259): validates the
strategy name, then tabulates `ecgEntry` for every integer age from
`startAge` to `endAge` inclusive. -/
def get_ecg_matrix (opt : String) (startAge endAge : ℤ) :
    Except String (List (ℤ × (ℚ × ℚ × ℚ))) :=
  if opt ∈ possibleInvestChoices then
    .ok ((intRangeIncl startAge endAge).map (fun a => (a, ecgEntry opt a)))
  else .error "ValueError: not a valid option"

/-- `get_investment_allocation` (invest_options.py lines 30-78): validates
the age range, builds the matrix and returns the allocation at `age`. -/
def get_investment_allocation (opt : String) (age : ℤ)
    (startAge : ℤ := 20) (endAge : ℤ := 60) : Except String (ℚ × ℚ × ℚ) :=
  if age < startAge ∨ endAge < age then .error "ValueError: age out of range"
  else
    match get_ecg_matrix opt startAge endAge with
    | .error e => .error e
    | .ok m =>
      match m.lookup age with
      | some t => .ok t
      | none => .error "ValueError: age not found in allocation matrix"

/-- C2: for every supported strategy and every age in range the three
allocation percentages should sum to 100, per the data-model invariant of
the spec and the sum check in `ecg_returns`. The code violates this: for
the strategy Auto_LC75 at age 36 (range 20-60) it returns
E = 72, C = 11, G = 18, whose sum is 101, not 100. The C percentage is
incremented by one per year after age 35 while E falls by 3 and G rises
by 3 per year, so the sum grows to 110 by age 45 and only returns to 100
at age 55. -/
theorem C2_lc75_sum_bug :
    get_investment_allocation "Auto_LC75" 36 20 60 = .ok (72, 11, 18) ∧
    (72 : ℚ) + 11 + 18 ≠ 100 := by
  constructor
  · decide
  · norm_num

/-!
## rates.py - dearness allowance

Timeline keys are half-year units: key `k` is the calendar half-year
`k / 2`, so `4048` is 2024.0 and `4051` is 2025.5. DA dictionaries become
association lists with Python dict update semantics.
-/

/-- Python dict assignment `d[k] = v`: update in place when the key is
present, append otherwise. -/
def dictSet (d : List (ℤ × ℚ)) (k : ℤ) (v : ℚ) : List (ℤ × ℚ) :=
  if d.any (fun p => p.1 == k) then
    d.map (fun p => if p.1 == k then (k, v) else p)
  else d ++ [(k, v)]

/-- Python dict merge as in `{**d, **e}`: every pair of `e` written over
`d` in order. -/
def dictMerge (d e : List (ℤ × ℚ)) : List (ℤ × ℚ) :=
  e.foldl (fun acc p => dictSet acc p.1 p.2) d

/-- `get_projected_DA` (rates.py lines 99-173): starting from the DA value
at `startH` (50 when the start is 2025.5, key 4051, else 0), accrues half
the tapering annualised inflation rate per half-year for `2 * taperYrs`
periods, rounding each stored value to one decimal. -/
def get_projected_DA (initialRate finalRate : ℚ) (taperYrs : ℤ)
    (startH : ℤ) : List (ℤ × ℚ) :=
  let startDA : ℚ := if startH = 4051 then 50 else 0
  let s0 : ℤ × ℚ × List (ℤ × ℚ) := (startH, startDA, [(startH, startDA)])
  let out := (List.range (2 * taperYrs).toNat).foldl
    (fun st _ =>
      let nextH := st.1 + 1
      let yearsElapsed : ℚ := ((nextH - startH : ℤ) : ℚ) / 2
      let rate : ℚ :=
        if yearsElapsed ≤ (taperYrs : ℚ) then
          initialRate - (initialRate - finalRate) * (yearsElapsed / (taperYrs : ℚ))
        else finalRate
      let newDA := st.2.1 + rate / 2
      (nextH, newDA, dictSet st.2.2 nextH (pyRound1 newDA))) s0
  out.2.2

/-- The DA reset of `get_DA_matrix`: `if k in d: d[k] = 0.0` — set an
existing key to zero, add nothing when the key is absent. -/
def resetKeyZero (d : List (ℤ × ℚ)) (k : ℤ) : List (ℤ × ℚ) :=
  if d.any (fun p => p.1 == k) then
    d.map (fun p => if p.1 == k then (k, 0) else p)
  else d

/-- One pass of the reset loop of `get_DA_matrix` (rates.py lines
225-233): `if pc_year in complete_da_matrix:` guards both assignments —
only when the commission year itself is a key does the matrix change; the
value at that year is then set to zero, and the half-year before it is
zeroed too when that key exists (the inner `if half_year_before in ...`
is the presence guard of `resetKeyZero`). Keys are in half-year units, so
a commission year `y` is key `2 * y` and the half-year before is
`2 * y - 1`. -/
def resetYearStep (d : List (ℤ × ℚ)) (y : ℤ) : List (ℤ × ℚ) :=
  if d.any (fun p => p.1 == 2 * y) then
    resetKeyZero (resetKeyZero d (2 * y)) (2 * y - 1)
  else d

/-- `get_DA_matrix` (rates.py lines 176-238): merge the historical archive
with the projection started at 2025.5 (key 4051), run the pay-commission
reset loop `resetYearStep` over the implementation years, and sort by
key. The historical archive is loaded from CSV files outside the
repository, so it is a parameter here; the `doj` argument of the Python
function is accepted but never used by its body and is omitted. -/
def get_DA_matrix (historicalDA : List (ℤ × ℚ)) (initialRate finalRate : ℚ)
    (taperYrs : ℤ) (pcImplementYears : List ℤ) : List (ℤ × ℚ) :=
  let projected := get_projected_DA initialRate finalRate taperYrs 4051
  let complete := dictMerge historicalDA projected
  let reset := pcImplementYears.foldl resetYearStep complete
  reset.insertionSort (fun a b => a.1 ≤ b.1)

/-- Every entry of `d` whose key is `k` carries the value zero. -/
def zeroAtKey (k : ℤ) (d : List (ℤ × ℚ)) : Prop :=
  ∀ p ∈ d, p.1 = k → p.2 = 0

theorem zeroAtKey_resetKeyZero_self (d : List (ℤ × ℚ)) (k : ℤ) :
    zeroAtKey k (resetKeyZero d k) := by
  intro p hp hk
  unfold resetKeyZero at hp
  by_cases hany : d.any (fun p => p.1 == k)
  · simp only [hany, if_true, List.mem_map] at hp
    obtain ⟨q, _, hq⟩ := hp
    by_cases hqk : q.1 == k
    · simp only [hqk, if_true] at hq
      rw [← hq]
    · simp only [hqk, if_false] at hq
      subst hq
      exact absurd (by simpa using hk) (by simpa using hqk)
  · simp only [hany, if_false] at hp
    exfalso
    rw [List.any_eq_true] at hany
    push_neg at hany
    exact absurd (by simpa using hk) (by simpa using hany p hp)

theorem zeroAtKey_resetKeyZero (d : List (ℤ × ℚ)) (k k' : ℤ)
    (h : zeroAtKey k d) : zeroAtKey k (resetKeyZero d k') := by
  intro p hp hk
  unfold resetKeyZero at hp
  by_cases hany : d.any (fun p => p.1 == k')
  · simp only [hany, if_true, List.mem_map] at hp
    obtain ⟨q, hq, hqe⟩ := hp
    by_cases hqk : q.1 == k'
    · simp only [hqk, if_true] at hqe
      rw [← hqe]
    · simp only [hqk, if_false] at hqe
      exact h p (hqe ▸ hq) hk
  · simp only [hany, if_false] at hp
    exact h p hp hk

theorem zeroAtKey_resetYearStep (d : List (ℤ × ℚ)) (k a : ℤ)
    (h : zeroAtKey k d) : zeroAtKey k (resetYearStep d a) := by
  unfold resetYearStep
  by_cases hg : d.any (fun p => p.1 == 2 * a)
  · simp only [hg, if_true]
    exact zeroAtKey_resetKeyZero _ _ _ (zeroAtKey_resetKeyZero _ _ _ h)
  · simp only [hg, if_false]
    exact h

theorem zeroAtKey_resetFold (k : ℤ) (l : List ℤ) (d : List (ℤ × ℚ))
    (h : zeroAtKey k d) : zeroAtKey k (l.foldl resetYearStep d) := by
  induction l generalizing d with
  | nil => exact h
  | cons a l ih =>
    exact ih _ (zeroAtKey_resetYearStep _ _ _ h)

/-- `d.any (·.1 == k)` is the Python `k in d` test on the association
list: some value is stored at key `k`. -/
theorem any_key_iff (d : List (ℤ × ℚ)) (k : ℤ) :
    d.any (fun p => p.1 == k) = true ↔ ∃ v, ((k, v) : ℤ × ℚ) ∈ d := by
  rw [List.any_eq_true]
  constructor
  · rintro ⟨p, hp, hpk⟩
    have hk : p.1 = k := by simpa using hpk
    exact ⟨p.2, by rw [← hk]; exact hp⟩
  · rintro ⟨v, hv⟩
    exact ⟨(k, v), hv, by simp⟩

/-- `resetKeyZero` overwrites values in place: it never adds or removes a
key. -/
theorem keyIn_resetKeyZero (d : List (ℤ × ℚ)) (k' k : ℤ) :
    (∃ v, ((k, v) : ℤ × ℚ) ∈ resetKeyZero d k') ↔
      ∃ v, ((k, v) : ℤ × ℚ) ∈ d := by
  unfold resetKeyZero
  by_cases hany : d.any (fun p => p.1 == k')
  · simp only [hany, if_true]
    constructor
    · rintro ⟨v, hv⟩
      rw [List.mem_map] at hv
      obtain ⟨q, hq, hqe⟩ := hv
      by_cases hqk : q.1 == k'
      · simp only [hqk, if_true] at hqe
        have hk : k' = k := congrArg Prod.fst hqe
        have hq1 : q.1 = k' := by simpa using hqk
        exact ⟨q.2, by rw [← hk, ← hq1]; exact hq⟩
      · simp only [hqk, if_false] at hqe
        exact ⟨v, hqe ▸ hq⟩
    · rintro ⟨v, hv⟩
      by_cases hkk : k == k'
      · have hk : k = k' := by simpa using hkk
        refine ⟨0, ?_⟩
        rw [List.mem_map]
        exact ⟨(k, v), hv, by simp [hk]⟩
      · refine ⟨v, ?_⟩
        rw [List.mem_map]
        exact ⟨(k, v), hv, by simp [hkk]⟩
  · simp [hany]

theorem keyIn_resetYearStep (d : List (ℤ × ℚ)) (a k : ℤ) :
    (∃ v, ((k, v) : ℤ × ℚ) ∈ resetYearStep d a) ↔
      ∃ v, ((k, v) : ℤ × ℚ) ∈ d := by
  unfold resetYearStep
  by_cases hg : d.any (fun p => p.1 == 2 * a)
  · simp only [hg, if_true]
    rw [keyIn_resetKeyZero, keyIn_resetKeyZero]
  · simp [hg]

theorem keyIn_resetFold (l : List ℤ) (d : List (ℤ × ℚ)) (k : ℤ) :
    (∃ v, ((k, v) : ℤ × ℚ) ∈ l.foldl resetYearStep d) ↔
      ∃ v, ((k, v) : ℤ × ℚ) ∈ d := by
  induction l generalizing d with
  | nil => exact Iff.rfl
  | cons a l ih =>
    rw [List.foldl_cons, ih (resetYearStep d a), keyIn_resetYearStep]

theorem zeroAtKey_resetFold_mem (y : ℤ) (l : List ℤ) (d : List (ℤ × ℚ))
    (hy : y ∈ l) (hkd : ∃ v, ((2 * y, v) : ℤ × ℚ) ∈ d) :
    zeroAtKey (2 * y) (l.foldl resetYearStep d) ∧
    zeroAtKey (2 * y - 1) (l.foldl resetYearStep d) := by
  induction l generalizing d with
  | nil => cases hy
  | cons a l ih =>
    rw [List.foldl_cons]
    rcases List.mem_cons.mp hy with rfl | hmem
    · have hg : d.any (fun p => p.1 == 2 * y) = true :=
        (any_key_iff d (2 * y)).mpr hkd
      have hstep : resetYearStep d y
          = resetKeyZero (resetKeyZero d (2 * y)) (2 * y - 1) := by
        unfold resetYearStep
        simp only [hg, if_true]
      rw [hstep]
      constructor
      · exact zeroAtKey_resetFold _ _ _
          (zeroAtKey_resetKeyZero _ _ _ (zeroAtKey_resetKeyZero_self _ _))
      · exact zeroAtKey_resetFold _ _ _ (zeroAtKey_resetKeyZero_self _ _)
    · exact ih _ hmem ((keyIn_resetYearStep d a (2 * y)).mpr hkd)

/-- C3: in the DA matrix built by `get_DA_matrix`, for every
pay-commission implementation year that appears as a key of the matrix
(the `if pc_year in complete_da_matrix` guard of the reset loop, an
invariant of the resets and the sort), every entry keyed at that year, or
at the half-year immediately before it, carries the allowance value
zero — for every historical archive, every inflation configuration and
every commission schedule. -/
theorem C3_da_zero_at_commission (historicalDA : List (ℤ × ℚ))
    (initialRate finalRate : ℚ) (taperYrs : ℤ) (pcYears : List ℤ)
    (y : ℤ) (hy : y ∈ pcYears)
    (hkey : ∃ v, ((2 * y, v) : ℤ × ℚ) ∈
      get_DA_matrix historicalDA initialRate finalRate taperYrs pcYears)
    (p : ℤ × ℚ)
    (hp : p ∈ get_DA_matrix historicalDA initialRate finalRate taperYrs pcYears)
    (hk : p.1 = 2 * y ∨ p.1 = 2 * y - 1) : p.2 = 0 := by
  unfold get_DA_matrix at hkey hp
  rw [List.mem_insertionSort] at hp
  simp only [List.mem_insertionSort] at hkey
  have hkd : ∃ v, ((2 * y, v) : ℤ × ℚ) ∈
      dictMerge historicalDA (get_projected_DA initialRate finalRate taperYrs 4051) :=
    (keyIn_resetFold pcYears _ (2 * y)).mp hkey
  have h := zeroAtKey_resetFold_mem y pcYears
    (dictMerge historicalDA (get_projected_DA initialRate finalRate taperYrs 4051)) hy hkd
  rcases hk with hk | hk
  · exact h.1 p hp hk
  · exact h.2 p hp hk

/-- Witness for C3 at a concrete configuration: archive entry at 2026.0
(key 4052), inflation 7 to 4 over a 1-year taper, single commission year
2026. The commission year appears as a key, and applying the theorem the
value stored there is 0. -/
theorem C3_da_zero_witness :
    (2026 : ℤ) ∈ [(2026 : ℤ)] ∧
    ((4052 : ℤ), (0 : ℚ)) ∈ get_DA_matrix [(4052, 5)] 7 4 1 [2026] ∧
    (((4052 : ℤ), (0 : ℚ)) : ℤ × ℚ).2 = 0 :=
  ⟨by decide, by decide,
    C3_da_zero_at_commission [(4052, 5)] 7 4 1 [2026] 2026 (by decide)
      ⟨0, by decide⟩ ((4052 : ℤ), (0 : ℚ)) (by decide) (Or.inl rfl)⟩

/-!
## pay_commissions.py - the pay matrix

A pay matrix is the loaded CSV DataFrame: an ordered list of named
columns, each column a list of cells, a blank cell (NaN) being `none`.
The first column of the CSV is the year-index column; the remaining
columns are pay levels.
-/

/-- A pandas DataFrame of the pay matrix: ordered (column name, cells)
pairs. -/
abbrev PayMatrix := List (String × List (Option ℤ))

/-- The column names, `pay_matrix_df.columns`. -/
def payLevels (M : PayMatrix) : List String := M.map (fun c => c.1)

/-- `len(pay_matrix_df)`: the number of rows. All columns of a DataFrame
have the same length; we read it off the first column. -/
def nRows (M : PayMatrix) : ℕ :=
  match M with
  | [] => 0
  | c :: _ => c.2.length

/-- Every column has the row count: the DataFrame is rectangular. -/
def PayMatrix.Rect (M : PayMatrix) : Prop :=
  ∀ c ∈ M, c.2.length = nRows M

/-- pandas `Series.last_valid_index()`: the position of the last cell that
holds a value, `none` for an all-blank column. -/
def lastValidIndex (l : List (Option ℤ)) : Option ℕ :=
  (l.reverse.findIdx? (fun c => c.isSome)).map (fun j => l.length - 1 - j)

/-- pandas `Series.iloc[i]` with Python index semantics: a negative index
counts from the end; out of range is an IndexError (`none`). -/
def pyIloc {α : Type} (l : List α) (i : ℤ) : Option α :=
  if 0 ≤ i then l.get? i.toNat
  else if (-i).toNat ≤ l.length then l.get? (l.length - (-i).toNat) else none

/-- `get_basic_pay` (pay_commissions.py lines 38-87): validates the level
and the year bound `1 <= year <= len(df)`, finds the last populated step,
returns the ceiling pay for `year >= max_steps` and the tabulated cell
otherwise; a blank cell under `int(...)` is an error. -/
def get_basic_pay (level : String) (year : ℤ) (M : PayMatrix) : Except String ℤ :=
  match M.lookup level with
  | none => .error "ValueError: level not found in pay matrix"
  | some col =>
    if year < 1 ∨ (nRows M : ℤ) < year then .error "ValueError: year out of range"
    else
      match lastValidIndex col with
      | none => .error "TypeError: column has no populated cell"
      | some li =>
        match col.get? li with
        | none => .error "IndexError"
        | some none => .error "TypeError: NaN ceiling"
        | some (some maxPay) =>
          if (li : ℤ) + 1 ≤ year then .ok maxPay
          else
            match pyIloc col (year - 1) with
            | some (some v) => .ok v
            | some none => .error "ValueError: int of NaN"
            | none => .error "IndexError"

/-- `annual_increment` (pay_commissions.py lines 140-182): validates the
level, then either stagnates at the ceiling (`year >= max_steps`: year
still increments, pay unchanged) or steps to the next tabulated cell.
There is no upper validation on `year` here. -/
def annual_increment (level : String) (year : ℤ) (M : PayMatrix) :
    Except String (String × ℤ × ℤ) :=
  match M.lookup level with
  | none => .error "ValueError: invalid level"
  | some col =>
    match lastValidIndex col with
    | none => .error "TypeError: column has no populated cell"
    | some li =>
      match col.get? li with
      | none => .error "IndexError"
      | some none => .error "TypeError: NaN ceiling"
      | some (some maxPay) =>
        if (li : ℤ) + 1 ≤ year then .ok (level, year + 1, maxPay)
        else
          match pyIloc col year with
          | some (some v) => .ok (level, year + 1, v)
          | some none => .error "ValueError: int of NaN"
          | none => .error "IndexError"

/-- `generate_next_pay_commission` (pay_commissions.py lines 275-331),
pure core: every cell of every value column (all columns but the first)
becomes `int(round(x * fitment_factor / 100.0) * 100)`; blank cells stay
blank; the first (year-index) column is untouched. The CSV read/write and
the filename bookkeeping around this transformation are file-system
side effects outside the shallow embedding. -/
def fitCell (fitmentFactor : ℚ) (x : ℤ) : ℤ :=
  pyRoundInt ((x : ℚ) * fitmentFactor / 100) * 100

def generate_next_pay_commission (fitmentFactor : ℚ) (M : PayMatrix) : PayMatrix :=
  match M with
  | [] => []
  | c0 :: rest =>
    c0 :: rest.map (fun c => (c.1, c.2.map (fun cell => cell.map (fitCell fitmentFactor))))

theorem fitCell_one (v : ℤ) (hv : (100 : ℤ) ∣ v) : fitCell 1 v = v := by
  obtain ⟨m, rfl⟩ := hv
  unfold fitCell
  have h : ((100 * m : ℤ) : ℚ) * 1 / 100 = (m : ℚ) := by
    push_cast
    ring
  rw [h, pyRoundInt_intCast]
  ring

theorem fitment_one_cols (cols : List (String × List (Option ℤ)))
    (h : ∀ c ∈ cols, ∀ cell ∈ c.2, ∀ v, cell = some v → (100 : ℤ) ∣ v) :
    cols.map (fun c => (c.1, c.2.map (fun cell => cell.map (fitCell 1)))) = cols := by
  induction cols with
  | nil => rfl
  | cons c cs ih =>
    simp only [List.map_cons, List.cons.injEq]
    constructor
    · obtain ⟨name, cells⟩ := c
      simp only [Prod.mk.injEq, true_and]
      have hcells := h (name, cells) (by simp)
      have hcell : ∀ cell ∈ cells, cell.map (fitCell 1) = cell := by
        intro cell hc
        match cell with
        | none => rfl
        | some v =>
          exact congrArg some (fitCell_one v (hcells (some v) hc v rfl))
      calc cells.map (fun cell => cell.map (fitCell 1))
          = cells.map id := List.map_congr_left hcell
        _ = cells := List.map_id cells
    · exact ih (fun d hd => h d (List.mem_cons_of_mem c hd))

/-- C4: deriving a pay matrix with fitment factor 1.0 reproduces the
source exactly when every tabulated value of every pay-level column is a
multiple of 100: values are unchanged and blank cells (ragged per-level
step counts) are preserved. -/
theorem C4_fitment_one_identity (M : PayMatrix)
    (h : ∀ c ∈ M.drop 1, ∀ cell ∈ c.2, ∀ v, cell = some v → (100 : ℤ) ∣ v) :
    generate_next_pay_commission 1 M = M := by
  match M with
  | [] => rfl
  | c0 :: rest =>
    show c0 :: rest.map _ = c0 :: rest
    rw [fitment_one_cols rest (fun c hc => h c (by simpa using hc))]

/-- Witness for C4: a small matrix with a year-index column, a ragged
level column and a full level column, all pay values multiples of 100. -/
theorem C4_fitment_one_witness :
    generate_next_pay_commission 1
        [("Year", [some 1, some 2]),
         ("10", [some 5600, none]),
         ("11", [some 6100, some 6700])] =
      [("Year", [some 1, some 2]),
       ("10", [some 5600, none]),
       ("11", [some 6100, some 6700])] :=
  C4_fitment_one_identity _ (by decide)

/-- C8: for every level and every step at or beyond the level's last
defined step (within the validated row range of the table for
`get_basic_pay`), `get_basic_pay` returns the level's ceiling pay, and
`annual_increment` returns the same level, the step incremented by one,
and the unchanged ceiling pay — stagnation. -/
theorem C8_ceiling_stagnation (M : PayMatrix) (level : String)
    (col : List (Option ℤ)) (year : ℤ) (li : ℕ) (ceiling : ℤ)
    (hcol : M.lookup level = some col)
    (hli : lastValidIndex col = some li)
    (hcell : col.get? li = some (some ceiling))
    (hstep : (li : ℤ) + 1 ≤ year)
    (hub : year ≤ (nRows M : ℤ)) :
    get_basic_pay level year M = .ok ceiling ∧
    annual_increment level year M = .ok (level, year + 1, ceiling) := by
  have h1 : ¬(year < 1 ∨ (nRows M : ℤ) < year) := by
    push_neg
    constructor
    · have : (0 : ℤ) ≤ (li : ℤ) := Int.ofNat_nonneg li
      omega
    · exact hub
  constructor
  · unfold get_basic_pay
    rw [hcol]
    simp only [if_neg h1, hli, hcell, if_pos hstep]
  · unfold annual_increment
    rw [hcol]
    simp only [hli, hcell, if_pos hstep]

/-- Witness for C8: the level 10 column has its single defined step at
position 0 with ceiling 5600; step 2 is beyond it, so the pay is clamped
to the ceiling and the increment stagnates to step 3 at the same pay. -/
theorem C8_ceiling_witness :
    get_basic_pay "10" 2 [("Year", [some 1, some 2]), ("10", [some 5600, none])] =
      .ok 5600 ∧
    annual_increment "10" 2 [("Year", [some 1, some 2]), ("10", [some 5600, none])] =
      .ok ("10", 3, 5600) :=
  C8_ceiling_stagnation _ "10" [some 5600, none] 2 0 5600
    (by decide) (by decide) (by decide) (by decide) (by decide)

/-!
## pay_commissions.py - promotion
-/

/-- pandas `Series.dropna().max()`: the largest defined cell, `none` when
the column has no defined cell (the NaN result). -/
def maxDefined (l : List (Option ℤ)) : Option ℤ := (l.filterMap id).max?

/-- The numpy comparison `value >= stepped_pay` of the promotion search:
false whenever either side is NaN. -/
def npGE (cell : Option ℤ) (s : Option ℤ) : Bool :=
  match cell, s with
  | some c, some sv => sv ≤ c
  | _, _ => false

/-- The stepped pay of `promote_employee`: the cell one step below the
current year (`iloc[year]`, 0-based), falling back to the column maximum
when that cell is blank. `none` of the outer option is an IndexError of
the iloc access; `none` of the inner option is the all-NaN column. -/
def promoSteppedPay (col : List (Option ℤ)) (year : ℤ) : Option (Option ℤ) :=
  (pyIloc col year).map (fun cell =>
    match cell with
    | some v => some v
    | none => maxDefined col)

/-- The next-level choice of `promote_employee`: one column to the right,
skipping 13A and 16 for IAS careers, clamped to the last column. -/
def promoNextLevel (M : PayMatrix) (level : String) (isIAS : Bool) : Option String :=
  let levels := payLevels M
  let currIndex := levels.indexOf level
  let nextIndex0 :=
    if currIndex + 1 < levels.length then
      if isIAS ∧ (levels.get? (currIndex + 1) = some "13A" ∨
                  levels.get? (currIndex + 1) = some "16") then
        currIndex + 2
      else currIndex + 1
    else currIndex + 1
  let nextIndex := if levels.length ≤ nextIndex0 then levels.length - 1 else nextIndex0
  levels.get? nextIndex

/-- `promote_employee` (pay_commissions.py lines 185-272): validate level
and year, compute the stepped pay, pick the next eligible level, find the
first cell there at least the stepped pay; for IAS promotions out of
levels 10-12 move two further steps clamped to the last row (a promotion
with no qualifying cell then hits `None + 2`, a TypeError); with no
qualifying cell otherwise, fall back to the last row of the target
column. -/
def promote_employee (level : String) (year : ℤ) (M : PayMatrix)
    (isIAS : Bool) : Except String (String × ℤ × ℤ) :=
  if level ∉ payLevels M then .error "ValueError: level not found"
  else if year < 1 ∨ (nRows M : ℤ) ≤ year then .error "ValueError: year out of bounds"
  else
    match M.lookup level with
    | none => .error "KeyError"
    | some col =>
      match promoSteppedPay col year with
      | none => .error "IndexError"
      | some steppedPay =>
        match promoNextLevel M level isIAS with
        | none => .error "IndexError: levels"
        | some nextLevel =>
          match M.lookup nextLevel with
          | none => .error "KeyError"
          | some nextCol =>
            let matchIdx := nextCol.findIdx? (fun c => npGE c steppedPay)
            if isIAS ∧ (level = "10" ∨ level = "11" ∨ level = "12") then
              match matchIdx with
              | none => .error "TypeError: NoneType + int"
              | some i =>
                let j := min (i + 2) (nextCol.length - 1)
                match nextCol.get? j with
                | none => .error "IndexError"
                | some none => .error "ValueError: int of NaN"
                | some (some v) => .ok (nextLevel, (j : ℤ) + 1, v)
            else
              match matchIdx with
              | none =>
                match nextCol.getLast? with
                | none => .error "IndexError"
                | some none => .error "ValueError: int of NaN"
                | some (some v) => .ok (nextLevel, (nextCol.length : ℤ), v)
              | some i =>
                match nextCol.get? i with
                | none => .error "IndexError"
                | some none => .error "ValueError: int of NaN"
                | some (some v) => .ok (nextLevel, (i : ℤ) + 1, v)

/-- Cells ordered where both are defined; blanks unconstrained. A column
satisfying `List.Pairwise cellLE` is non-decreasing on its defined
cells. -/
def cellLE (a b : Option ℤ) : Prop :=
  match a, b with
  | some x, some y => x ≤ y
  | _, _ => True

instance : DecidableRel cellLE := fun a b =>
  match a, b with
  | some x, some y => inferInstanceAs (Decidable (x ≤ y))
  | some _, none => isTrue trivial
  | none, some _ => isTrue trivial
  | none, none => isTrue trivial

/-- C1 counterexample: with the non-decreasing table
level 1 = [100, 200], level 2 = [50, 60], promoting a non-IAS employee
from level 1, year 1, steps to pay 200 (the cell one step further in
level 1); no cell of level 2 reaches 200, so the fallback returns the
ceiling 60 of level 2 — strictly below the stepped pay. -/
theorem C1_promotion_fallback_cex :
    promote_employee "1" 1 [("1", [some 100, some 200]), ("2", [some 50, some 60])]
        false = .ok ("2", 2, 60) ∧
    promoSteppedPay [some 100, some 200] 1 = some (some 200) ∧
    ¬((200 : ℤ) ≤ 60) := by
  refine ⟨by decide, by decide, by decide⟩

theorem npGE_some {x : Option ℤ} {s : ℤ} (h : npGE x (some s) = true) :
    ∃ u, x = some u ∧ s ≤ u := by
  match x with
  | some u =>
    refine ⟨u, rfl, ?_⟩
    simpa [npGE] using h
  | none => simp [npGE] at h

theorem cellLE_get {l : List (Option ℤ)} (hmono : l.Pairwise cellLE) {i j : ℕ}
    (hij : i ≤ j) {u v : ℤ}
    (hu : l.get? i = some (some u)) (hv : l.get? j = some (some v)) : u ≤ v := by
  rcases Nat.lt_or_ge i j with hlt | hge
  · have hjlen : j < l.length := by
      by_contra hc
      rw [List.get?_eq_none.mpr (Nat.le_of_not_lt hc)] at hv
      cases hv
    have hilen : i < l.length := Nat.lt_trans hlt hjlen
    have := List.pairwise_iff_get.mp hmono ⟨i, hilen⟩ ⟨j, hjlen⟩ hlt
    rw [List.get?_eq_get hilen] at hu
    rw [List.get?_eq_get hjlen] at hv
    have hu' : l.get ⟨i, hilen⟩ = some u := by injection hu
    have hv' : l.get ⟨j, hjlen⟩ = some v := by injection hv
    rw [hu', hv'] at this
    exact this
  · have : i = j := Nat.le_antisymm hij hge
    subst this
    rw [hu] at hv
    injection hv with hv
    injection hv with hv
    omega

/-- C1 amended: whenever the target level of a promotion holds some cell
at least the stepped pay and its column is non-decreasing on defined
cells, every successful `promote_employee` result pays at least the
stepped pay. (As frozen the claim also covered the fallback where no
cell of the target level reaches the stepped pay; there the code returns
the target ceiling, below the stepped pay — see the counterexample.) -/
theorem C1_promotion_pay_lower_bound (level : String) (year : ℤ)
    (M : PayMatrix) (isIAS : Bool) (col nextCol : List (Option ℤ))
    (nl0 : String) (s : ℤ)
    (hcol : M.lookup level = some col)
    (hstepped : promoSteppedPay col year = some (some s))
    (hnl : promoNextLevel M level isIAS = some nl0)
    (hncol : M.lookup nl0 = some nextCol)
    (hfound : nextCol.any (fun c => npGE c (some s)) = true)
    (hmono : nextCol.Pairwise cellLE)
    (nl : String) (ny npay : ℤ)
    (hres : promote_employee level year M isIAS = .ok (nl, ny, npay)) :
    s ≤ npay := by
  have hex : ∃ x, x ∈ nextCol ∧ npGE x (some s) = true := by
    simpa [List.any_eq_true] using hfound
  obtain ⟨i, hidx⟩ : ∃ i, nextCol.findIdx? (fun c => npGE c (some s)) = some i :=
    ⟨_, List.findIdx?_eq_some_of_exists hex⟩
  have hspec := List.findIdx?_eq_some_iff_getElem.mp hidx
  obtain ⟨hilen, hpi, -⟩ := hspec
  obtain ⟨u, hu, hsu⟩ := npGE_some hpi
  have hgi : nextCol.get? i = some (some u) := by
    rw [List.get?_eq_getElem?, List.getElem?_eq_getElem hilen, hu]
  unfold promote_employee at hres
  split at hres
  · exact absurd hres (by simp)
  split at hres
  · exact absurd hres (by simp)
  simp only [hcol, hstepped, hnl, hncol, hidx] at hres
  split at hres
  · -- IAS promotion out of level 10, 11 or 12: two extra steps, clamped
    split at hres
    · simp at hres
    · simp at hres
    · rename_i x maxPay hget
      simp only [Except.ok.injEq, Prod.mk.injEq] at hres
      obtain ⟨-, -, hpv⟩ := hres
      subst hpv
      have hij : i ≤ min (i + 2) (nextCol.length - 1) :=
        Nat.le_min.mpr ⟨by omega, by omega⟩
      exact le_trans hsu (cellLE_get hmono hij hgi hget)
  · -- plain promotion: the first qualifying cell itself
    split at hres
    · simp at hres
    · simp at hres
    · rename_i x maxPay hget
      simp only [Except.ok.injEq, Prod.mk.injEq] at hres
      obtain ⟨-, -, hpv⟩ := hres
      subst hpv
      rw [hgi] at hget
      injection hget with hget
      injection hget with hget
      omega

/-- Witness for C1: promoting from level 1, year 1 in the table
level 1 = [100, 200], level 2 = [150, 250]; the stepped pay is 200 and
the engine lands on pay 250 at level 2, step 2, at least the stepped
pay. -/
theorem C1_promotion_witness :
    promote_employee "1" 1 [("1", [some 100, some 200]), ("2", [some 150, some 250])]
        false = .ok ("2", 2, 250) ∧ (200 : ℤ) ≤ 250 :=
  ⟨by decide,
    C1_promotion_pay_lower_bound "1" 1
      [("1", [some 100, some 200]), ("2", [some 150, some 250])] false
      [some 100, some 200] [some 150, some 250] "2" 200
      (by decide) (by decide) (by decide) (by decide) (by decide) (by decide)
      "2" 2 250 (by decide)⟩

/-!
## pay_commissions.py - reverse lookup
-/

/-- The Python value `Union[str, int]` returned by
`get_level_year_from_basic_pay`: a level name string on success, the
integer 0 of the `(0, 0)` sentinel otherwise. -/
inductive PyVal where
  | intv (n : ℤ)
  | strv (s : String)
deriving DecidableEq

/-- The match collection loop of `get_level_year_from_basic_pay`: every
(level, 1-based year) whose tabulated cell equals the searched pay, in
column order then row order. NaN cells never compare equal. -/
def payMatches (basicPay : ℤ) (M : PayMatrix) : List (String × ℤ) :=
  M.flatMap (fun c =>
    c.2.enum.filterMap (fun ic =>
      if ic.2 = some basicPay then some (c.1, (ic.1 : ℤ) + 1) else none))

/-- `x.replace('A', '.5')` specialised to the single-character pattern the
sort key uses, written on the character list so it evaluates in the
kernel. -/
def replaceA5 (s : String) : String :=
  ⟨s.data.foldr (fun c acc => if c = 'A' then '.' :: '5' :: acc else c :: acc) []⟩

/-- Split a character list on a separator, mirroring `str.split`. -/
def splitChars (sep : Char) (cs : List Char) : List (List Char) :=
  cs.foldr (fun c acc =>
    match acc with
    | [] => if c = sep then [[], []] else [[c]]
    | g :: gs => if c = sep then [] :: (g :: gs) else (c :: g) :: gs) [[]]

def digitsVal (cs : List Char) : Option ℕ :=
  if cs = [] then none
  else if cs.all (fun c => c.isDigit) then
    some (cs.foldl (fun acc c => 10 * acc + (c.toNat - 48)) 0)
  else none

/-- Python `float(s)` restricted to the unsigned decimal numerals that
occur as pay-matrix level names (`"10"`, `"13.5"`, ...). -/
def parseDecimalQ (s : String) : Option ℚ :=
  match splitChars '.' s.data with
  | [a] => (digitsVal a).map (fun n => (n : ℚ))
  | [a, b] =>
    match digitsVal a, digitsVal b with
    | some n, some m => some ((n : ℚ) + (m : ℚ) / ((10 : ℚ) ^ b.length))
    | _, _ => none
  | _ => none

/-- The numeric sort key of a level name:
`float(x.replace('A', '.5')) if 'A' in x else float(x)`, so `"13A"`
sorts as 13.5. `none` when the name is not numeric (the float call would
raise). -/
def levelKey (s : String) : Option ℚ :=
  if s.data.contains 'A' then parseDecimalQ (replaceA5 s) else parseDecimalQ s

/-- The full sort key `(level value, -year)` of a found match; the sort is
descending on it, so the head of the sorted list has the highest level
and, within it, the lowest year. -/
def locateKey (m : String × ℤ) : ℚ ×ₗ ℚ := toLex ((levelKey m.1).getD 0, -(m.2 : ℚ))

def locateRel (a b : String × ℤ) : Prop := locateKey b ≤ locateKey a

instance : DecidableRel locateRel := fun a b =>
  inferInstanceAs (Decidable (locateKey b ≤ locateKey a))

instance : IsTotal (String × ℤ) locateRel :=
  ⟨fun a b => (le_total (locateKey b) (locateKey a)).imp id id⟩

instance : IsTrans (String × ℤ) locateRel :=
  ⟨fun _ _ _ hab hbc => le_trans hbc hab⟩

/-- `get_level_year_from_basic_pay` (pay_commissions.py lines 90-137):
collect every (level, year) whose tabulated pay equals the amount; with
no match return the `(0, 0)` sentinel (the int 0, not a level string);
otherwise sort descending by (level value, -year) — stably, as Python
does — and return the head. A level name the float conversion cannot
parse is a ValueError raised while sorting. -/
def get_level_year_from_basic_pay (basicPay : ℤ) (M : PayMatrix) :
    Except String (PyVal × ℤ) :=
  let found := payMatches basicPay M
  if found.isEmpty then .ok (.intv 0, 0)
  else if _h : ∀ m ∈ found, (levelKey m.1).isSome then
    match found.insertionSort locateRel with
    | [] => .ok (.intv 0, 0)
    | best :: _ => .ok (.strv best.1, best.2)
  else .error "ValueError: could not convert string to float"

/-- C7 counterexample: an amount matching no tabulated value makes
`get_level_year_from_basic_pay` return the in-band sentinel `(0, 0)` as
an ordinary value — it does not fail with a lookup error as the claim
states. -/
theorem C7_sentinel_cex :
    payMatches 999 [("10", [some 100])] = [] ∧
    get_level_year_from_basic_pay 999 [("10", [some 100])] = .ok (.intv 0, 0) := by
  exact ⟨by decide, by decide⟩

/-- C7 amended: whenever the reverse lookup returns a level and year, that
pair is one of the cells holding the searched amount, and it is maximal:
every other matching cell is at a level of strictly smaller numeric value,
or at the same level with a year at least as large. With no match the
function returns the sentinel `(0, 0)` instead of raising (see the
counterexample). -/
theorem C7_locate_highest_level_lowest_step (basicPay : ℤ) (M : PayMatrix)
    (l : String) (y : ℤ)
    (hres : get_level_year_from_basic_pay basicPay M = .ok (.strv l, y)) :
    (l, y) ∈ payMatches basicPay M ∧
    ∀ m ∈ payMatches basicPay M,
      (levelKey m.1).getD 0 < (levelKey l).getD 0 ∨
      ((levelKey m.1).getD 0 = (levelKey l).getD 0 ∧ y ≤ m.2) := by
  simp only [get_level_year_from_basic_pay] at hres
  split at hres
  · simp at hres
  split at hres
  case isFalse => simp at hres
  split at hres
  case h_1 => simp at hres
  case h_2 best rest heq =>
    simp only [Except.ok.injEq, Prod.mk.injEq, PyVal.strv.injEq] at hres
    obtain ⟨hl, hy⟩ := hres
    have hbest : (l, y) = best := by
      rw [← hl, ← hy]
    have hsorted : List.Sorted locateRel (best :: rest) := by
      rw [← heq]
      exact List.sorted_insertionSort locateRel _
    constructor
    · rw [hbest]
      have : best ∈ best :: rest := List.mem_cons_self _ _
      rw [← heq, List.mem_insertionSort] at this
      exact this
    · intro m hm
      have hm' : m ∈ best :: rest := by
        rw [← heq, List.mem_insertionSort]
        exact hm
      have hkey : locateKey m ≤ locateKey (l, y) := by
        rw [hbest]
        rcases List.mem_cons.mp hm' with rfl | hmr
        · exact le_refl _
        · exact List.rel_of_sorted_cons hsorted m hmr
      unfold locateKey at hkey
      rw [Prod.Lex.le_iff] at hkey
      rcases hkey with hlt | ⟨hev, hle⟩
      · exact Or.inl hlt
      · refine Or.inr ⟨hev, ?_⟩
        have : (y : ℚ) ≤ (m.2 : ℚ) := by
          have := neg_le_neg hle
          simpa using this
        exact_mod_cast this

/-- Witness for C7: amount 200 appears at level 10 year 2 and at level 11
year 1; the lookup prefers the higher level 11 and within it the lowest
year. -/
theorem C7_locate_witness :
    get_level_year_from_basic_pay 200
        [("10", [some 100, some 200]), ("11", [some 200, some 300])] =
      .ok (.strv "11", 1) ∧
    ("11", (1 : ℤ)) ∈ payMatches 200
        [("10", [some 100, some 200]), ("11", [some 200, some 300])] :=
  ⟨by decide,
    (C7_locate_highest_level_lowest_step 200
      [("10", [some 100, some 200]), ("11", [some 200, some 300])]
      "11" 1 (by decide)).1⟩

/-!
## salary.py - monthly salary breakdown

`get_monthly_salary` reads only the `Year` field of the career
progression records, so the embedding takes the list of those half-year
keys. Of the returned structure the month-indexed salary dictionary and
the total are modelled; the per-year averages are a further pure view of
the same data that no claim touches.
-/

/-- The sorted set of career years, `sorted(set(...))`. -/
def sortedYears (careerYears : List ℤ) : List ℤ :=
  careerYears.dedup.insertionSort (fun a b => a ≤ b)

/-- The half-year salary of one period (salary.py lines 162-172): the
matrix value when the key is present; otherwise the value at the largest
earlier key (a ValueError when there is none), or the default 50000 for
an empty matrix. -/
def msHalfSalary (salary_matrix : List (ℤ × ℚ)) (y : ℤ) : Except String ℚ :=
  match salary_matrix.lookup y with
  | some s => .ok s
  | none =>
    if salary_matrix.isEmpty then .ok 50000
    else
      match ((salary_matrix.map (fun p => p.1)).filter (fun k => k < y)).max? with
      | none => .error "ValueError: max of empty sequence"
      | some prev =>
        match salary_matrix.lookup prev with
        | some s => .ok s
        | none => .error "KeyError"

/-- The month assignments of one half-year period (salary.py lines
174-197): the half-year salary divided by 12, rounded to 2 decimals, is
written at six consecutive month indices; the base index counts six
months for every earlier year of the career. -/
def msBlock (allYears : List ℤ) (y : ℤ) (s : ℚ) : List (ℕ × ℚ) :=
  let monthly := s / 12
  let startMonth : ℕ := if y % 2 = 0 then 1 else 7
  let baseMonth : ℕ := 1 + 6 * (allYears.countP (fun p => decide (p < y)))
  (List.range 6).map (fun t =>
    let month := startMonth + t
    (baseMonth + (month - startMonth), pyRound2 monthly))

def msLoop (m : List (ℤ × ℚ)) (allYears : List ℤ) :
    List ℤ → Except String (List (ℕ × ℚ))
  | [] => .ok []
  | y :: rest =>
    match msHalfSalary m y with
    | .error e => .error e
    | .ok s =>
      match msLoop m allYears rest with
      | .error e => .error e
      | .ok out => .ok (msBlock allYears y s ++ out)

/-- `get_monthly_salary` (salary.py lines 118-216): iterate the sorted
distinct career years, assigning each half-year period's salary divided
by 12 to its six month indices; the second component is the
`total_annual_salary`, the sum of all assigned values. -/
def get_monthly_salary (salary_matrix : List (ℤ × ℚ)) (careerYears : List ℤ) :
    Except String (List (ℕ × ℚ) × ℚ) :=
  let years := sortedYears careerYears
  match msLoop salary_matrix years years with
  | .error e => .error e
  | .ok detailed => .ok (detailed, (detailed.map (fun p => p.2)).sum)

/-- C5 counterexample: one half-year period 2024.5 (key 4049, covering
July to December 2024) with half-year salary 120000, and joining date
9 October 2024. The series assigns the full 10000 = 120000/12 to every
month index 1..6. Month index 1 is July 2024, strictly before the
joining date, yet its value is 10000, not 0; and the joining month
October (index 4) gets 10000 where the claim requires the prorated
floor(120000/12 * 23/31), about 7419.35 — off by 80000/31, far beyond
rounding tolerance. -/
theorem C5_no_proration_cex :
    get_monthly_salary [(4049, 120000)] [4049] =
      .ok ([(1, 10000), (2, 10000), (3, 10000),
            (4, 10000), (5, 10000), (6, 10000)], 60000) ∧
    (10000 : ℚ) ≠ 0 ∧
    (10000 : ℚ) - 120000 / 12 * (23 / 31) = 80000 / 31 ∧
    ¬((80000 : ℚ) / 31 ≤ 1) := by
  refine ⟨by decide, by norm_num, by norm_num, by norm_num⟩

theorem msHalfSalary_of_mem {m : List (ℤ × ℚ)} {y : ℤ} {s : ℚ}
    (h : m.lookup y = some s) : msHalfSalary m y = .ok s := by
  unfold msHalfSalary
  rw [h]

theorem msLoop_ok (m : List (ℤ × ℚ)) (allYears : List ℤ) (ys : List ℤ)
    (h : ∀ y ∈ ys, (m.lookup y).isSome) :
    msLoop m allYears ys =
      .ok (ys.flatMap (fun y => msBlock allYears y ((m.lookup y).getD 0))) := by
  induction ys with
  | nil => rfl
  | cons y rest ih =>
    obtain ⟨s, hs⟩ := Option.isSome_iff_exists.mp (h y (by simp))
    rw [List.flatMap_cons]
    unfold msLoop
    rw [msHalfSalary_of_mem hs, ih (fun z hz => h z (List.mem_cons_of_mem y hz)), hs]
    rfl

theorem msBlock_length (allYears : List ℤ) (y : ℤ) (s : ℚ) :
    (msBlock allYears y s).length = 6 := by
  unfold msBlock
  simp

theorem msBlock_get (allYears : List ℤ) (y : ℤ) (s : ℚ) (t : ℕ) (ht : t < 6) :
    (msBlock allYears y s).get? t =
      some (1 + 6 * (allYears.countP (fun p => decide (p < y))) + t,
            pyRound2 (s / 12)) := by
  unfold msBlock
  rw [List.get?_eq_getElem?]
  simp [List.getElem?_map, List.getElem?_range ht]

theorem flatMap_block_length (f : ℤ → List (ℕ × ℚ)) (hlen : ∀ y, (f y).length = 6)
    (l : List ℤ) : (l.flatMap f).length = 6 * l.length := by
  induction l with
  | nil => simp
  | cons a l ih =>
    rw [List.flatMap_cons, List.length_append, hlen, ih, List.length_cons]
    ring

theorem flatMap_block_get (f : ℤ → List (ℕ × ℚ)) (hlen : ∀ y, (f y).length = 6)
    (l : List ℤ) (j t : ℕ) (ht : t < 6) (y : ℤ) (hy : l.get? j = some y) :
    (l.flatMap f).get? (6 * j + t) = (f y).get? t := by
  induction l generalizing j with
  | nil => cases hy
  | cons a l ih =>
    rw [List.flatMap_cons]
    match j with
    | 0 =>
      have hya : a = y := by
        rw [List.get?_cons_zero] at hy
        injection hy
      subst hya
      rw [Nat.mul_zero, Nat.zero_add, List.get?_eq_getElem?, List.get?_eq_getElem?]
      exact List.getElem?_append_left (by rw [hlen]; exact ht)
    | j + 1 =>
      rw [List.get?_cons_succ] at hy
      have h6 : (f a).length ≤ 6 * (j + 1) + t := by
        rw [hlen]
        omega
      rw [List.get?_eq_getElem?, List.getElem?_append_right h6, hlen]
      have h7 : 6 * (j + 1) + t - 6 = 6 * j + t := by omega
      rw [h7, ← List.get?_eq_getElem?]
      exact ih j hy

theorem countP_lt_of_pairwise_lt :
    ∀ (l : List ℤ), l.Pairwise (fun a b => a < b) →
      ∀ (j : ℕ) (y : ℤ), l.get? j = some y →
        l.countP (fun p => decide (p < y)) = j := by
  intro l hl
  induction l with
  | nil => intro j y hy; cases hy
  | cons a l ih =>
    intro j y hy
    rw [List.pairwise_cons] at hl
    match j with
    | 0 =>
      have hya : a = y := by
        rw [List.get?_cons_zero] at hy
        injection hy
      subst hya
      rw [List.countP_cons]
      have h0 : l.countP (fun p => decide (p < a)) = 0 := by
        rw [List.countP_eq_zero]
        intro x hx
        simp only [decide_eq_true_eq]
        exact not_lt_of_gt (hl.1 x hx)
      rw [h0]
      simp
    | j + 1 =>
      rw [List.get?_cons_succ] at hy
      have hyl : y ∈ l := List.get?_mem hy
      rw [List.countP_cons]
      have ha : (decide (a < y)) = true := by
        simp only [decide_eq_true_eq]
        exact hl.1 y hyl
      rw [ih hl.2 j y hy, ha]
      simp

theorem sortedYears_pairwise_lt (careerYears : List ℤ) :
    (sortedYears careerYears).Pairwise (fun a b => a < b) := by
  unfold sortedYears
  have hs : (careerYears.dedup.insertionSort (fun a b => a ≤ b)).Pairwise
      (fun a b : ℤ => a ≤ b) :=
    List.sorted_insertionSort _ _
  have hn : (careerYears.dedup.insertionSort (fun a b => a ≤ b)).Nodup := by
    rw [(List.perm_insertionSort (fun a b : ℤ => a ≤ b) careerYears.dedup).nodup_iff]
    exact List.nodup_dedup _
  exact (hs.and hn).imp (fun h => lt_of_le_of_ne h.1 h.2)

/-- C5 amended: the monthly series knows nothing of joining or retirement
dates. For every salary matrix holding all career years, the series is
exactly six entries per sorted career half-year, every entry carrying the
full half-year salary divided by 12 (rounded to 2 decimals) — no month is
zeroed and no month is prorated by days served. -/
theorem C5_uniform_twelfth (salary_matrix : List (ℤ × ℚ)) (careerYears : List ℤ)
    (hmem : ∀ y ∈ sortedYears careerYears, (salary_matrix.lookup y).isSome) :
    ∃ detailed total,
      get_monthly_salary salary_matrix careerYears = .ok (detailed, total) ∧
      detailed.length = 6 * (sortedYears careerYears).length ∧
      ∀ (j : ℕ) (y : ℤ) (s : ℚ), (sortedYears careerYears).get? j = some y →
        salary_matrix.lookup y = some s →
        ∀ t, t < 6 →
          detailed.get? (6 * j + t) = some (6 * j + 1 + t, pyRound2 (s / 12)) := by
  have hpair := sortedYears_pairwise_lt careerYears
  have hlen : ∀ y : ℤ,
      (msBlock (sortedYears careerYears) y
        ((salary_matrix.lookup y).getD 0)).length = 6 :=
    fun y => msBlock_length _ _ _
  refine ⟨(sortedYears careerYears).flatMap
      (fun y => msBlock (sortedYears careerYears) y ((salary_matrix.lookup y).getD 0)),
    (((sortedYears careerYears).flatMap
      (fun y => msBlock (sortedYears careerYears) y
        ((salary_matrix.lookup y).getD 0))).map (fun p => p.2)).sum, ?_, ?_, ?_⟩
  · simp only [get_monthly_salary]
    rw [msLoop_ok salary_matrix _ _ hmem]
  · exact flatMap_block_length _ hlen _
  · intro j y s hj hs t ht
    rw [flatMap_block_get _ hlen _ j t ht y hj]
    rw [msBlock_get _ y _ t ht, hs]
    rw [countP_lt_of_pairwise_lt _ hpair j y hj]
    have h13 : 1 + 6 * j + t = 6 * j + 1 + t := by omega
    rw [h13]
    rfl

/-- Witness for C5 at the counterexample configuration: one period, six
entries of 10000 each. -/
theorem C5_uniform_witness :
    ∃ detailed total,
      get_monthly_salary [(4049, 120000)] [4049] = .ok (detailed, total) ∧
      detailed.length = 6 * (sortedYears [4049]).length ∧
      ∀ (j : ℕ) (y : ℤ) (s : ℚ), (sortedYears [4049]).get? j = some y →
        (List.lookup y [(4049, 120000)] : Option ℚ) = some s →
        ∀ t, t < 6 →
          detailed.get? (6 * j + t) = some (6 * j + 1 + t, pyRound2 (s / 12)) :=
  C5_uniform_twelfth [(4049, 120000)] [4049] (by decide)

/-!
## rates.py / contribution.py - investment returns

`interest_rate_tapering_dict` always carries the three asset classes and
the taper period (it is built only by `get_interest_rate_tapering_dict`),
so it is a structure here; the `if asset in dict` guards of
`apply_investment_returns` are then always true.
-/

structure RateTaperConfig where
  einitial : ℚ
  efinal : ℚ
  cinitial : ℚ
  cfinal : ℚ
  ginitial : ℚ
  gfinal : ℚ
  taperPeriod : ℤ
deriving DecidableEq

/-- `get_interest_rate_tapering_dict` (rates.py lines 241-314). -/
def get_interest_rate_tapering_dict (Ei Ef Ci Cf Gi Gf : ℚ) (taper : ℤ) :
    RateTaperConfig :=
  ⟨Ei, Ef, Ci, Cf, Gi, Gf, taper⟩

/-- `get_tapered_rate` (rates.py lines 317-375): the asset class's annual
rate for a given year — the initial rate before the start year, the final
rate once the taper period has elapsed, and otherwise the linear
interpolation rounded to 2 decimals. -/
def get_tapered_rate (assetClass : String) (year : ℚ) (cfg : RateTaperConfig)
    (startYear : ℚ := 2024) : Except String ℚ :=
  if assetClass ∉ ["E", "C", "G"] then .error "ValueError: invalid asset class"
  else
    let initialRate :=
      if assetClass = "E" then cfg.einitial
      else if assetClass = "C" then cfg.cinitial else cfg.ginitial
    let finalRate :=
      if assetClass = "E" then cfg.efinal
      else if assetClass = "C" then cfg.cfinal else cfg.gfinal
    if year < startYear then .ok initialRate
    else
      let yearsElapsed := year - startYear
      if (cfg.taperPeriod : ℚ) ≤ yearsElapsed then .ok finalRate
      else
        let taperRatio := yearsElapsed / (cfg.taperPeriod : ℚ)
        .ok (pyRound2 (initialRate - taperRatio * (initialRate - finalRate)))

/-- `apply_investment_returns` (contribution.py lines 91-153): the monthly
corpus update. Note that the weighted annual return is built from the
configuration's `initial` rates only — the function never consults
`get_tapered_rate`, the `final` rates or the taper period, and it is not
told the calendar year. -/
def apply_investment_returns (corpus contribution : ℚ) (opt : String)
    (age : ℤ) (cfg : RateTaperConfig) : Except String ℚ :=
  match get_investment_allocation opt age with
  | .error e => .error e
  | .ok (e, c, g) =>
    let weighted : ℚ :=
      0 + e / 100 * cfg.einitial + c / 100 * cfg.cinitial + g / 100 * cfg.ginitial
    let monthlyRate := weighted / 12 / 100
    .ok (pyRound2 (corpus * (1 + monthlyRate) + contribution))

/-- Modelled from the spec (section 4.7 and the claim): the monthly
update with each asset class's tapered annual return fetched for the
current calendar year through `get_tapered_rate`, for comparison with
`apply_investment_returns`. -/
def spec_tapered_investment_update (corpus contribution : ℚ) (opt : String)
    (age : ℤ) (year : ℚ) (cfg : RateTaperConfig) : Except String ℚ :=
  match get_investment_allocation opt age with
  | .error er => .error er
  | .ok (e, c, g) =>
    match get_tapered_rate "E" year cfg 2024, get_tapered_rate "C" year cfg 2024,
          get_tapered_rate "G" year cfg 2024 with
    | .ok rE, .ok rC, .ok rG =>
      let weighted : ℚ := e / 100 * rE + c / 100 * rC + g / 100 * rG
      .ok (pyRound2 (corpus * (1 + weighted / 12 / 100) + contribution))
    | _, _, _ => .error "rate lookup"

/-- C6: the claim says the monthly growth rate is derived from each asset
class's tapered annual return at the current calendar year. The code
applies the initial rates unconditionally. With the default configuration
(E 12 to 6, C 8 to 4, G 4 to 4, taper 40 years from 2024) and an
Auto_LC50 investor of age 60 in calendar year 2064 (40 years after a
2024 start at age 20), the corpus update of 1200 with no contribution
yields 1205.2 under the code (weighted initial rate 5.2 percent), while
the tapered rates of 2064 (6, 4, 4) give 1204.2. The update shape
`corpus * (1 + rate) + contribution` itself is as claimed. -/
theorem C6_initial_rate_bug :
    apply_investment_returns 1200 0 "Auto_LC50" 60
        (get_interest_rate_tapering_dict 12 6 8 4 4 4 40) = .ok 1205.2 ∧
    spec_tapered_investment_update 1200 0 "Auto_LC50" 60 2064
        (get_interest_rate_tapering_dict 12 6 8 4 4 4 40) = .ok 1204.2 ∧
    get_tapered_rate "E" 2064 (get_interest_rate_tapering_dict 12 6 8 4 4 4 40)
        2024 = .ok 6 ∧
    (1205.2 : ℚ) ≠ 1204.2 := by
  refine ⟨by decide, by decide, by decide, by norm_num⟩

/-!
## pay_commissions.py - career_progression

The main half-year simulation loop (lines 334-534). Dates arrive parsed
as (year, month) pairs — `parse_date` and `get_retirement_date` are
collaborators of the loop, and the early-retirement choice between `dor`
and the computed retirement date happens before the state machine starts.
The `da_matrix` and `percent_inc_salary` parameters of the Python
function are accepted but never read by the loop body and are omitted.
The commission branch regenerates the derived table in memory
(`generate_next_pay_commission` on the current table); the
`os.path.exists` shortcut of the source loads a file with exactly that
content when a previous run left it on disk.
-/

structure CareerRec where
  level : String
  yearRowInLevel : ℤ
  basicPay : ℤ
  yearsOfServiceH : ℕ
  yearH : ℤ
deriving DecidableEq

structure CareerConfig where
  startingLevel : String
  startingYearRow : ℤ
  promotionDurations : List ℤ
  payMatrix : PayMatrix
  joinYear : ℤ
  joinMonth : ℤ
  retireYear : ℤ
  retireMonth : ℤ
  isIAS : Bool
  pcImplementYears : List ℤ
  fitmentFactors : List ℚ

/-- Joining year on the half-year grid: `+ 0.5 if joining month > 6`. -/
def CareerConfig.joinH (cfg : CareerConfig) : ℤ :=
  2 * cfg.joinYear + (if 6 < cfg.joinMonth then 1 else 0)

/-- Retirement year on the half-year grid: `+ 0.5 if retiring month > 6`. -/
def CareerConfig.retireH (cfg : CareerConfig) : ℤ :=
  2 * cfg.retireYear + (if 6 < cfg.retireMonth then 1 else 0)

/-- `max_service_years` in half-year units. -/
def CareerConfig.maxServiceH (cfg : CareerConfig) : ℤ :=
  cfg.retireH - cfg.joinH

/-- The number of loop iterations: service durations 0, 0.5, 1, ... run
while duration <= max_service_years, so `maxServiceH + 1` slots when the
tenure is non-negative and none otherwise. -/
def CareerConfig.numSlots (cfg : CareerConfig) : ℕ :=
  (cfg.maxServiceH + 1).toNat

/-- `promotion_due_years_array`: cumulative sums of the promotion
durations from the (integer) joining year, the seed dropped. -/
def promotionDueYears (joinYear : ℤ) (durations : List ℤ) : List ℤ :=
  (durations.scanl (fun acc d => acc + d) joinYear).tail

structure CPState where
  payLevel : String
  yearRow : ℤ
  basicPay : ℤ
  promoIdx : ℕ
  pcIdx : ℕ
  matrix : PayMatrix
  shalves : ℕ

/-- The year-end promotion check: fires when a promotion is due this
year; here the bounds check on the promotion index comes first, so the
due-years list is never over-indexed. -/
def careerPromo (cfg : CareerConfig) (level : String) (row pay : ℤ)
    (pcIdx promoIdx : ℕ) (matrix : PayMatrix) (yearH : ℤ) :
    Except String (String × ℤ × ℤ × ℕ × ℕ × PayMatrix) :=
  if promoIdx < cfg.promotionDurations.length then
    match (promotionDueYears cfg.joinYear cfg.promotionDurations).get? promoIdx with
    | none => .error "IndexError: promotion due years"
    | some dueY =>
      if yearH = 2 * dueY then
        match promote_employee level row matrix cfg.isIAS with
        | .error e => .error e
        | .ok (l, r, p) => .ok (l, r, p, pcIdx, promoIdx + 1, matrix)
      else .ok (level, row, pay, pcIdx, promoIdx, matrix)
  else .ok (level, row, pay, pcIdx, promoIdx, matrix)

/-- One half-year slot of the simulation loop: the mid-year annual
increment (suppressed in the very first slot), then at year-end the pay
commission switch followed by the promotion. The commission condition
evaluates `pay_commission_implement_years[pay_commission_index]` BEFORE
its bounds check, so a year-end slot with the index already past the end
of the list raises IndexError. -/
def careerSlotCore (cfg : CareerConfig) (st : CPState) :
    Except String (String × ℤ × ℤ × ℕ × ℕ × PayMatrix) :=
  let yearH : ℤ := cfg.joinH + (st.shalves : ℤ)
  let step1 : Except String (String × ℤ × ℤ) :=
    if yearH % 2 = 1 ∧ 1 ≤ st.shalves then
      annual_increment st.payLevel st.yearRow st.matrix
    else .ok (st.payLevel, st.yearRow, st.basicPay)
  match step1 with
  | .error e => .error e
  | .ok (level1, row1, pay1) =>
    if yearH % 2 = 0 then
      match cfg.pcImplementYears.get? st.pcIdx with
      | none => .error "IndexError: list index out of range"
      | some pcYear =>
        if yearH = 2 * pcYear then
          match cfg.fitmentFactors.get? st.pcIdx with
          | none => .error "IndexError: fitment factors"
          | some fit =>
            let newM := generate_next_pay_commission fit st.matrix
            match get_basic_pay level1 row1 newM with
            | .error e => .error e
            | .ok pay => careerPromo cfg level1 row1 pay (st.pcIdx + 1) st.promoIdx newM yearH
        else careerPromo cfg level1 row1 pay1 st.pcIdx st.promoIdx st.matrix yearH
    else .ok (level1, row1, pay1, st.pcIdx, st.promoIdx, st.matrix)

/-- One slot: the record appended for this half-year and the state for
the next one. -/
def careerSlot (cfg : CareerConfig) (st : CPState) :
    Except String (CareerRec × CPState) :=
  match careerSlotCore cfg st with
  | .error e => .error e
  | .ok (l, r, p, pc, pr, m) =>
    .ok (⟨l, r, p, st.shalves, cfg.joinH + (st.shalves : ℤ)⟩,
         ⟨l, r, p, pr, pc, m, st.shalves + 1⟩)

def careerLoop (cfg : CareerConfig) : ℕ → CPState → Except String (List CareerRec)
  | 0, _ => .ok []
  | n + 1, st =>
    match careerSlot cfg st with
    | .error e => .error e
    | .ok (record, st') =>
      match careerLoop cfg n st' with
      | .error e => .error e
      | .ok rest => .ok (record :: rest)

/-- `career_progression` (pay_commissions.py lines 334-534): the
validations, the initial basic-pay read, and the half-year loop. -/
def career_progression (cfg : CareerConfig) : Except String (List CareerRec) :=
  if cfg.fitmentFactors.length ≠ cfg.pcImplementYears.length then
    .error "ValueError: fitment factors mismatch"
  else if cfg.startingLevel ∉ payLevels cfg.payMatrix then
    .error "ValueError: invalid pay level"
  else
    match cfg.payMatrix.lookup cfg.startingLevel with
    | none => .error "KeyError"
    | some col =>
      match pyIloc col (cfg.startingYearRow - 1) with
      | none => .error "IndexError"
      | some none => .error "ValueError: int of NaN"
      | some (some bp0) =>
        careerLoop cfg cfg.numSlots
          ⟨cfg.startingLevel, cfg.startingYearRow, bp0, 0, 0, cfg.payMatrix, 0⟩

theorem careerSlot_shape (cfg : CareerConfig) (st : CPState)
    (record : CareerRec) (st' : CPState)
    (h : careerSlot cfg st = .ok (record, st')) :
    record.yearsOfServiceH = st.shalves ∧
    record.yearH = cfg.joinH + (st.shalves : ℤ) ∧
    st'.shalves = st.shalves + 1 := by
  unfold careerSlot at h
  split at h
  · simp at h
  · simp only [Except.ok.injEq, Prod.mk.injEq] at h
    obtain ⟨h1, h2⟩ := h
    rw [← h1, ← h2]
    exact ⟨rfl, rfl, rfl⟩

theorem careerLoop_spec (cfg : CareerConfig) :
    ∀ (n : ℕ) (st : CPState) (out : List CareerRec),
      careerLoop cfg n st = .ok out →
      out.length = n ∧
      ∀ (i : ℕ) (h : i < out.length),
        (out.get ⟨i, h⟩).yearsOfServiceH = st.shalves + i ∧
        (out.get ⟨i, h⟩).yearH = cfg.joinH + (st.shalves : ℤ) + i := by
  intro n
  induction n with
  | zero =>
    intro st out h
    unfold careerLoop at h
    simp only [Except.ok.injEq] at h
    subst h
    exact ⟨rfl, fun i hi => absurd hi (by simp)⟩
  | succ n ih =>
    intro st out h
    unfold careerLoop at h
    split at h
    · simp at h
    · rename_i record st' hslot
      split at h
      · simp at h
      · rename_i rest hrest
        simp only [Except.ok.injEq] at h
        subst h
        obtain ⟨hsh, hyh, hst'⟩ := careerSlot_shape cfg st record st' hslot
        obtain ⟨hlen, hidx⟩ := ih st' rest hrest
        refine ⟨by simp [hlen], ?_⟩
        intro i hi
        match i with
        | 0 =>
          simp only [Nat.add_zero, Nat.cast_zero, add_zero]
          exact ⟨hsh, hyh⟩
        | i + 1 =>
          have hi' : i < rest.length := by
            simp only [List.length_cons] at hi
            omega
          have := hidx i hi'
          simp only [List.get_cons_succ]
          constructor
          · rw [(this).1, hst']
            omega
          · rw [(this).2, hst']
            push_cast
            ring

/-- C9: for every configuration on which `career_progression` returns a
trace, the loop has terminated after exactly one iteration per half-year
slot: the trace length is the slot count `(max_service_years * 2) + 1`
(zero for a negative tenure), the i-th record's cumulative service is
`i` half-years — it grows by 0.5 years per iteration from 0 — and its
calendar key walks the half-year grid from the adjusted joining year.
Termination itself is by construction: the loop is structural recursion
on the slot count. -/
theorem C9_career_loop_termination (cfg : CareerConfig) (trace : List CareerRec)
    (hres : career_progression cfg = .ok trace) :
    trace.length = cfg.numSlots ∧
    ∀ (i : ℕ) (h : i < trace.length),
      (trace.get ⟨i, h⟩).yearsOfServiceH = i ∧
      (trace.get ⟨i, h⟩).yearH = cfg.joinH + (i : ℤ) := by
  unfold career_progression at hres
  split at hres
  · simp at hres
  split at hres
  · simp at hres
  split at hres
  · simp at hres
  split at hres
  · simp at hres
  · simp at hres
  · rename_i col hcol bp0 hbp
    obtain ⟨hlen, hidx⟩ := careerLoop_spec cfg cfg.numSlots _ trace hres
    refine ⟨hlen, ?_⟩
    intro i hi
    have h := hidx i hi
    constructor
    · simpa using h.1
    · have h2 := h.2
      simpa using h2

/-- A three-slot career with a far-future commission year: level 10 for
half-years 2024.0, 2024.5, 2025.0, one increment at mid-year. -/
def careerWitnessConfig : CareerConfig :=
  ⟨"10", 1, [], [("Year", [some 1, some 2]), ("10", [some 100, some 110])],
   2024, 1, 2025, 1, false, [2100], [1]⟩

/-- Witness for C9: the concrete run emits one record per half-year slot,
with service 0, 0.5 and 1 years. -/
theorem C9_career_loop_witness :
    career_progression careerWitnessConfig =
      .ok [⟨"10", 1, 100, 0, 4048⟩, ⟨"10", 2, 110, 1, 4049⟩,
           ⟨"10", 2, 110, 2, 4050⟩] ∧
    ([⟨"10", 1, 100, 0, 4048⟩, ⟨"10", 2, 110, 1, 4049⟩,
      ⟨"10", 2, 110, 2, 4050⟩] : List CareerRec).length =
      careerWitnessConfig.numSlots :=
  ⟨by decide, (C9_career_loop_termination careerWitnessConfig _ (by decide)).1⟩

/-- A career in which the single scheduled commission (2025) fires during
service and a further year-end slot follows. -/
def allCommissionsFireConfig : CareerConfig :=
  ⟨"10", 1, [], [("Year", [some 1, some 2]), ("10", [some 100, some 110])],
   2024, 1, 2027, 1, false, [2025], [1]⟩

/-- C10: in the year-end branch of the career loop the commission-year
list is indexed at the commission index before the bounds check on that
index is evaluated (the short-circuit `and` tests
`pay_commission_index < len(...)` only after the subscript). So every
year-end slot reached with the index already at the end of the list is an
IndexError; concretely, a run in which the whole commission schedule
fires during service fails at the next year-end slot instead of
completing. -/
theorem C10_commission_index_bug :
    (∀ (cfg : CareerConfig) (st : CPState),
        (cfg.joinH + (st.shalves : ℤ)) % 2 = 0 →
        cfg.pcImplementYears.length ≤ st.pcIdx →
        careerSlotCore cfg st = .error "IndexError: list index out of range") ∧
    career_progression allCommissionsFireConfig =
      .error "IndexError: list index out of range" := by
  constructor
  · intro cfg st heven hidx
    unfold careerSlotCore
    have hodd : ¬((cfg.joinH + (st.shalves : ℤ)) % 2 = 1 ∧ 1 ≤ st.shalves) := by
      intro hc
      omega
    simp only [if_neg hodd, if_pos heven, List.get?_eq_none.mpr hidx]
  · decide
